import Mathlib

/-!
Verification of the Bay Area Discounts mobile client data layer.

This file gives a shallow embedding, in Lean, of the cache-backed fetch
layer, the favorites / recent-search / filter-preset stores, the browse
screen filtering and sorting pipeline, and the search request sequencer
of the repository, and proves the specified properties about them.

Conventions of the embedding:
- Asynchronous storage is modelled as a function from string keys to
  optional string or entry values; reads and writes are explicit.
- The network is modelled by an oracle value of type Option: some payload
  when the fetch (transport, HTTP status, JSON parse) succeeds, none when
  any of those steps fails.
- Machine time (Date.now) and identifier generation are passed in as
  explicit parameters.
- JavaScript string falsiness (empty string is falsy) is modelled
  explicitly where the source relies on it.
-/

namespace BayArea

/-! The cache-backed fetch layer, from APIService in the api service module. -/

def CACHE_DURATION : Int := 24 * 60 * 60 * 1000

def KEY_PROGRAMS : String := "@bay_area_discounts:programs"

def KEY_CATEGORIES : String := "@bay_area_discounts:categories"

def KEY_ELIGIBILITY : String := "@bay_area_discounts:eligibility"

def KEY_AREAS : String := "@bay_area_discounts:areas"

def KEY_METADATA : String := "@bay_area_discounts:metadata"

def KEY_FAVORITES : String := "@bay_area_discounts:favorites"

def KEY_RECENT_SEARCHES : String := "@bay_area_discounts:recent_searches"

def KEY_FILTER_PRESETS : String := "@bay_area_discounts:filter_presets"

/-- Values of the CACHE_KEYS object, in declaration order. -/
def CACHE_KEYS_values : List String :=
  [KEY_PROGRAMS, KEY_CATEGORIES, KEY_ELIGIBILITY, KEY_AREAS, KEY_METADATA,
   KEY_FAVORITES, KEY_RECENT_SEARCHES, KEY_FILTER_PRESETS]

/-- CachedData wraps a payload with its capture timestamp (milliseconds). -/
structure CachedData (α : Type) where
  data : α
  timestamp : Int
deriving DecidableEq

/-- The typed cache portion of AsyncStorage: each key holds an optional entry. -/
def CacheStore (α : Type) : Type := String → Option (CachedData α)

/-- APIService.getFromCache: read the entry at key; a stale entry (age
strictly greater than CACHE_DURATION) is discarded unless allowStale. -/
def getFromCache {α : Type} (st : CacheStore α) (now : Int) (key : String)
    (allowStale : Bool) : Option α :=
  match st key with
  | none => none
  | some cached =>
    let age := now - cached.timestamp
    if !allowStale && age > CACHE_DURATION then none
    else some cached.data

/-- APIService.saveToCache: overwrite the entry at key with the payload
stamped at the current time. -/
def saveToCache {α : Type} (st : CacheStore α) (now : Int) (key : String)
    (data : α) : CacheStore α :=
  fun k => if k = key then some ⟨data, now⟩ else st k

/-- Observable outcome of one fetchWithCache call: the returned payload
(none means the failure propagated to the caller), the cache store after
the call, whether the network was consulted, and whether a cache write
happened. -/
structure FetchOutcome (α : Type) where
  result : Option α
  store : CacheStore α
  networkCalled : Bool
  cacheWrote : Bool

/-- Network branch of APIService.fetchWithCache: issue the GET; on success
parse, write the cache entry and return the payload; on any failure fall
back to the cache allowing staleness, else propagate the failure. -/
def fetchNetwork {α : Type} (st : CacheStore α) (now : Int) (key : String)
    (net : Option α) : FetchOutcome α :=
  match net with
  | some data => ⟨some data, saveToCache st now key data, true, true⟩
  | none =>
    match getFromCache st now key true with
    | some cached => ⟨some cached, st, true, false⟩
    | none => ⟨none, st, true, false⟩

/-- APIService.fetchWithCache: unless forceRefresh, a present fresh entry
is returned immediately with no network call; otherwise the network branch
runs. -/
def fetchWithCache {α : Type} (st : CacheStore α) (now : Int) (key : String)
    (forceRefresh : Bool) (net : Option α) : FetchOutcome α :=
  if !forceRefresh then
    match getFromCache st now key false with
    | some cached => ⟨some cached, st, false, false⟩
    | none => fetchNetwork st now key net
  else fetchNetwork st now key net

/-- C1: with forceRefresh false and a cached entry whose age is at most
CACHE_DURATION, fetchWithCache returns exactly the stored payload, consults
no network, and writes nothing: the store is returned unchanged. -/
theorem fetchWithCache_fresh_hit {α : Type} (st : CacheStore α) (now : Int)
    (key : String) (net : Option α) (e : CachedData α)
    (hst : st key = some e) (hfresh : now - e.timestamp ≤ CACHE_DURATION) :
    fetchWithCache st now key false net =
      ⟨some e.data, st, false, false⟩ := by
  unfold fetchWithCache getFromCache
  simp only [Bool.not_false, Bool.true_and, hst]
  have hgt : ¬ (now - e.timestamp > CACHE_DURATION) := not_lt.mpr hfresh
  simp [hgt]

/-- Concrete instantiation of the fresh cache hit theorem. -/
theorem fetchWithCache_fresh_hit_witness :
    fetchWithCache
      (fun k => if k = KEY_PROGRAMS then some ⟨(42 : Nat), 0⟩ else none)
      100 KEY_PROGRAMS false none =
      ⟨some 42, (fun k => if k = KEY_PROGRAMS then some ⟨(42 : Nat), 0⟩ else none),
       false, false⟩ :=
  fetchWithCache_fresh_hit
    (fun k => if k = KEY_PROGRAMS then some ⟨(42 : Nat), 0⟩ else none)
    100 KEY_PROGRAMS none ⟨42, 0⟩ (by simp) (by decide)

/-- C2: when the network fetch fails, fetchWithCache returns the stored
payload whenever any entry exists for the key, regardless of age, and
propagates the failure (result none) when no entry exists; in either case
the store is unchanged and no cache write happens. Moreover, over any
network oracle, a cache write happens exactly when the network was
consulted and succeeded. -/
theorem fetchWithCache_failure_fallback {α : Type} (st : CacheStore α)
    (now : Int) (key : String) (force : Bool) (net : Option α) :
    ((fetchWithCache st now key force none).result =
        (st key).map CachedData.data
      ∧ (fetchWithCache st now key force none).store = st
      ∧ (fetchWithCache st now key force none).cacheWrote = false)
    ∧ (fetchWithCache st now key force net).cacheWrote =
        ((fetchWithCache st now key force net).networkCalled && net.isSome) := by
  constructor
  · unfold fetchWithCache fetchNetwork getFromCache
    cases hst : st key with
    | none => cases force <;> simp
    | some e =>
      cases force with
      | false =>
        by_cases hage : now - e.timestamp > CACHE_DURATION <;>
          simp [hage]
      | true => simp
  · unfold fetchWithCache fetchNetwork getFromCache
    cases hst : st key with
    | none => cases force <;> cases net <;> simp
    | some e =>
      cases force with
      | false =>
        by_cases hage : now - e.timestamp > CACHE_DURATION <;>
          cases net <;> simp [hage]
      | true => cases net <;> simp

/-! The favorites store, from APIService.addFavorite and
APIService.removeFavorite, acting on the persisted identifier list. -/

/-- APIService.addFavorite: append the id only when it is not present. -/
def addFavorite (favorites : List String) (programId : String) : List String :=
  if favorites.contains programId then favorites
  else favorites ++ [programId]

/-- APIService.removeFavorite: keep every id different from the argument. -/
def removeFavorite (favorites : List String) (programId : String) : List String :=
  favorites.filter (fun id => id ≠ programId)

/-- C9: on a duplicate-free favorites list, addFavorite is a no-op when the
id is present and appends it exactly once otherwise, removeFavorite removes
every occurrence of the id and keeps every other id, and both operations
preserve duplicate-freeness. -/
theorem favorites_nodup_invariant (favorites : List String)
    (programId : String) (h : favorites.Nodup) :
    (programId ∈ favorites → addFavorite favorites programId = favorites)
    ∧ (programId ∉ favorites →
        addFavorite favorites programId = favorites ++ [programId])
    ∧ (addFavorite favorites programId).Nodup
    ∧ programId ∉ removeFavorite favorites programId
    ∧ (∀ x, x ≠ programId →
        (x ∈ removeFavorite favorites programId ↔ x ∈ favorites))
    ∧ (removeFavorite favorites programId).Nodup := by
  refine ⟨?_, ?_, ?_, ?_, ?_, ?_⟩
  · intro hmem
    have hc : favorites.contains programId = true := by simpa using hmem
    simp [addFavorite, hc, hmem]
  · intro hmem
    have hc : favorites.contains programId = false := by simpa using hmem
    simp [addFavorite, hc, hmem]
  · by_cases hmem : programId ∈ favorites
    · have hc : favorites.contains programId = true := by simpa using hmem
      simpa [addFavorite, hc, hmem] using h
    · have hc : favorites.contains programId = false := by simpa using hmem
      simp only [addFavorite, hc, if_neg Bool.false_ne_true]
      exact List.Nodup.append h (List.nodup_singleton programId)
        (by simpa using hmem)
  · intro hmem
    have := (List.mem_filter.mp hmem).2
    simp at this
  · intro x hx
    constructor
    · intro hmem
      exact (List.mem_filter.mp hmem).1
    · intro hmem
      exact List.mem_filter.mpr ⟨hmem, by simp [hx]⟩
  · exact List.Nodup.filter _ h

/-- Concrete instantiation of the favorites invariant theorem. -/
theorem favorites_nodup_invariant_witness :
    addFavorite ["a", "b"] "a" = ["a", "b"]
    ∧ addFavorite ["a", "b"] "c" = ["a", "b", "c"]
    ∧ "a" ∉ removeFavorite ["a", "b"] "a" := by
  have h := favorites_nodup_invariant ["a", "b"] "a" (by decide)
  have h2 := favorites_nodup_invariant ["a", "b"] "c" (by decide)
  exact ⟨h.1 (by decide), h2.2.1 (by decide), h.2.2.2.1⟩

/-! The favorite toggle handlers of the browse and search screens. Each is
a straight-line async handler; the embedding returns the visible favorites
state at the moment the persistence call is issued together with the final
visible state, as a pair, with the success of the persistence call passed
as a parameter. -/

/-- Membership flip used by the browse screen functional updates: remove
the id when present, append it otherwise. -/
def flipFavorite (favorites : List String) (programId : String) : List String :=
  if favorites.contains programId then favorites.filter (fun id => id ≠ programId)
  else favorites ++ [programId]

/-- Browse screen handleToggleFavorite: flip the visible state first, then
persist; on persistence failure flip the visible state back. Returns the
pair of the visible state at the persistence call and the final visible
state. -/
def browseToggleFavorite (favorites : List String) (programId : String)
    (persistOk : Bool) : List String × List String :=
  let next := flipFavorite favorites programId
  if persistOk then (next, next)
  else (next, flipFavorite next programId)

/-- Search screen handleToggleFavorite: persist first, and update the
visible state only after the persistence call succeeds; a failure is only
logged. Returns the pair of the visible state at the persistence call and
the final visible state. -/
def searchToggleFavorite (favorites : List String) (programId : String)
    (persistOk : Bool) : List String × List String :=
  if persistOk then (favorites, flipFavorite favorites programId)
  else (favorites, favorites)

/-- Flipping toggles membership of the flipped id. -/
theorem mem_flipFavorite (favorites : List String) (programId : String) :
    (programId ∈ flipFavorite favorites programId) ↔ programId ∉ favorites := by
  by_cases hmem : programId ∈ favorites
  · have hc : favorites.contains programId = true := by simpa using hmem
    simp only [flipFavorite, hc, if_true]
    constructor
    · intro hf
      have := (List.mem_filter.mp hf).2
      simp at this
    · intro hno
      exact absurd hmem hno
  · have hc : favorites.contains programId = false := by simpa using hmem
    simp [flipFavorite, hc, hmem]

/-- C5 counterexample: in the search screen handler, at the moment the
persistence call is issued the visible favorited state of the id is not
yet flipped, refuting the claim that every toggle initiated from the UI
flips the visible state immediately before the persistence call. -/
theorem searchToggle_not_flipped_before_persist :
    ¬ (("p1" ∈ (searchToggleFavorite [] "p1" true).1) ↔
        "p1" ∉ ([] : List String)) := by decide

/-- C5 amended: the browse screen toggle flips the visible favorited state
of the id before the persistence call, keeps the flipped state on success
and reverts it to the pre-toggle value on failure; the search screen
toggle leaves the visible state unchanged at the persistence call, sets
the flipped state only after success, and leaves the state at its
pre-toggle value on failure. -/
theorem toggleFavorite_rollback (favorites : List String) (programId : String) :
    (∀ ok, (programId ∈ (browseToggleFavorite favorites programId ok).1) ↔
        programId ∉ favorites)
    ∧ ((programId ∈ (browseToggleFavorite favorites programId true).2) ↔
        programId ∉ favorites)
    ∧ ((programId ∈ (browseToggleFavorite favorites programId false).2) ↔
        programId ∈ favorites)
    ∧ (∀ ok, (searchToggleFavorite favorites programId ok).1 = favorites)
    ∧ ((programId ∈ (searchToggleFavorite favorites programId true).2) ↔
        programId ∉ favorites)
    ∧ (searchToggleFavorite favorites programId false).2 = favorites := by
  refine ⟨?_, ?_, ?_, ?_, ?_, ?_⟩
  · intro ok
    cases ok <;> simpa [browseToggleFavorite] using
      mem_flipFavorite favorites programId
  · simpa [browseToggleFavorite] using mem_flipFavorite favorites programId
  · simp only [browseToggleFavorite, if_neg Bool.false_ne_true]
    rw [mem_flipFavorite, mem_flipFavorite]
    exact not_not
  · intro ok
    cases ok <;> simp [searchToggleFavorite]
  · simpa [searchToggleFavorite] using mem_flipFavorite favorites programId
  · simp [searchToggleFavorite]

/-! The recent search store, from APIService.addRecentSearch. -/

/-- Model of the JavaScript toLowerCase used for the case-insensitive
duplicate check: lower-case each character. -/
def jsToLower (s : String) : String := String.mk (s.data.map Char.toLower)

/-- Model of the JavaScript trim used on preset names: drop whitespace
from both ends. -/
def jsTrim (s : String) : String :=
  String.mk
    (((s.data.dropWhile Char.isWhitespace).reverse.dropWhile
        Char.isWhitespace).reverse)

def MAX_RECENT_SEARCHES : Nat := 5

/-- APIService.addRecentSearch: ignore queries shorter than two characters
(the source guard on a falsy query is subsumed, the empty string having
length zero), drop case-insensitive duplicates, prepend, keep the first
MAX_RECENT_SEARCHES entries. -/
def addRecentSearch (searches : List String) (query : String) : List String :=
  if query.length < 2 then searches
  else
    (query :: searches.filter (fun s => jsToLower s ≠ jsToLower query)).take
      MAX_RECENT_SEARCHES

/-- C6: addRecentSearch leaves the list unchanged on queries shorter than
two characters; otherwise the result starts with the query, has at most
five entries, its remaining entries are not case-insensitively equal to
the query, every entry is the query or came from the input, and when a
case-insensitive duplicate was present the length does not grow; lists of
at most five entries stay at most five entries. -/
theorem addRecentSearch_spec (searches : List String) (query : String) :
    (query.length < 2 → addRecentSearch searches query = searches)
    ∧ (2 ≤ query.length →
        (addRecentSearch searches query).head? = some query
        ∧ (addRecentSearch searches query).length ≤ 5
        ∧ (∀ s ∈ (addRecentSearch searches query).tail,
            jsToLower s ≠ jsToLower query)
        ∧ (∀ s ∈ addRecentSearch searches query, s = query ∨ s ∈ searches)
        ∧ ((∃ s ∈ searches, jsToLower s = jsToLower query) →
            (addRecentSearch searches query).length ≤ searches.length))
    ∧ (searches.length ≤ 5 →
        (addRecentSearch searches query).length ≤ 5) := by
  by_cases hlen : query.length < 2
  · refine ⟨fun _ => by simp [addRecentSearch, hlen], fun h2 => ?_, ?_⟩
    · omega
    · intro h5
      simpa [addRecentSearch, hlen] using h5
  · have hguard : ¬ query.length < 2 := hlen
    refine ⟨fun h => absurd h hguard, fun _ => ?_, fun _ => ?_⟩
    · refine ⟨?_, ?_, ?_, ?_, ?_⟩
      · simp [addRecentSearch, hguard, MAX_RECENT_SEARCHES, List.take_succ_cons]
      · simp [addRecentSearch, hguard, MAX_RECENT_SEARCHES,
          List.length_take_le]
      · intro s hs
        simp only [addRecentSearch, if_neg hguard, MAX_RECENT_SEARCHES,
          List.take_succ_cons, List.tail_cons] at hs
        have hs2 := List.mem_of_mem_take hs
        have := (List.mem_filter.mp hs2).2
        simpa using this
      · intro s hs
        simp only [addRecentSearch, if_neg hguard, MAX_RECENT_SEARCHES,
          List.take_succ_cons] at hs
        rcases List.mem_cons.mp hs with h | h
        · exact Or.inl h
        · exact Or.inr ((List.mem_filter.mp (List.mem_of_mem_take h)).1)
      · rintro ⟨s, hsmem, hseq⟩
        have hfilt : (searches.filter
            (fun s => jsToLower s ≠ jsToLower query)).length < searches.length := by
          apply List.length_filter_lt_length_iff_exists.mpr
          exact ⟨s, hsmem, by simp [hseq]⟩
        calc (addRecentSearch searches query).length
            ≤ (query :: searches.filter
                (fun s => jsToLower s ≠ jsToLower query)).length := by
              simp [addRecentSearch, hguard, MAX_RECENT_SEARCHES,
                List.length_take_le]
          _ = (searches.filter
                (fun s => jsToLower s ≠ jsToLower query)).length + 1 := by
              simp
          _ ≤ searches.length := by omega
    · simp [addRecentSearch, hguard, MAX_RECENT_SEARCHES, List.length_take_le]

/-- Concrete instantiation of the recent search theorem: a short query is
ignored, and re-adding a case-insensitive duplicate keeps the length. -/
theorem addRecentSearch_spec_witness :
    addRecentSearch ["ab"] "x" = ["ab"]
    ∧ (addRecentSearch ["ab", "cd"] "AB").length ≤ 2 := by
  have h1 := addRecentSearch_spec ["ab"] "x"
  have h2 := addRecentSearch_spec ["ab", "cd"] "AB"
  refine ⟨h1.1 (by decide), ?_⟩
  have := (h2.2.1 (by decide)).2.2.2.2 ⟨"ab", by decide, by decide⟩
  simpa using this

/-! The filter preset store, from APIService.saveFilterPreset. -/

/-- Snapshot of the active filters stored inside a preset. -/
structure PresetFilters where
  categories : List String
  eligibility : List String
  areas : List String
  searchQuery : String
deriving DecidableEq

/-- FilterPreset record, as exported by the api service module. -/
structure FilterPreset where
  id : String
  name : String
  filters : PresetFilters
  createdAt : String
deriving DecidableEq

def MAX_PRESETS : Nat := 10

/-- APIService.saveFilterPreset: reject an empty or whitespace-only name
(trim yields the empty string, covering the falsy-name guard) and reject
a full store of MAX_PRESETS presets, both returning none with the store
unchanged; otherwise prepend a preset with the trimmed name. The fresh id
(Date.now().toString()) and the creation timestamp are parameters. -/
def saveFilterPreset (presets : List FilterPreset) (name : String)
    (filters : PresetFilters) (newId : String) (createdAt : String) :
    Option FilterPreset × List FilterPreset :=
  if jsTrim name = "" then (none, presets)
  else if MAX_PRESETS ≤ presets.length then (none, presets)
  else
    let preset : FilterPreset := ⟨newId, jsTrim name, filters, createdAt⟩
    (some preset, preset :: presets)

/-- C7: saveFilterPreset returns null and leaves the store unchanged on an
empty or whitespace-only name, or when ten presets already exist (nothing
is evicted); otherwise it prepends a preset carrying the trimmed name and
returns it. -/
theorem saveFilterPreset_spec (presets : List FilterPreset) (name : String)
    (filters : PresetFilters) (newId : String) (createdAt : String) :
    (jsTrim name = "" →
      saveFilterPreset presets name filters newId createdAt = (none, presets))
    ∧ (10 ≤ presets.length →
      saveFilterPreset presets name filters newId createdAt = (none, presets))
    ∧ (jsTrim name ≠ "" → presets.length < 10 →
      saveFilterPreset presets name filters newId createdAt =
        (some ⟨newId, jsTrim name, filters, createdAt⟩,
          ⟨newId, jsTrim name, filters, createdAt⟩ :: presets)) := by
  refine ⟨fun h => by simp [saveFilterPreset, h], fun h => ?_, fun h hlt => ?_⟩
  · by_cases htrim : jsTrim name = ""
    · simp [saveFilterPreset, htrim]
    · simp [saveFilterPreset, htrim, MAX_PRESETS, h]
  · have : ¬ MAX_PRESETS ≤ presets.length := by
      simpa [MAX_PRESETS] using hlt
    simp [saveFilterPreset, h, this]

/-- Concrete instantiation of the filter preset theorem: a full store of
ten presets rejects a save, a blank name rejects a save, and an ordinary
save prepends the trimmed preset. -/
theorem saveFilterPreset_spec_witness :
    (saveFilterPreset (List.replicate 10 ⟨"0", "n", ⟨[], [], [], ""⟩, "t"⟩)
        "new" ⟨[], [], [], ""⟩ "1" "t2" =
      (none, List.replicate 10 ⟨"0", "n", ⟨[], [], [], ""⟩, "t"⟩))
    ∧ (saveFilterPreset [] "  " ⟨[], [], [], ""⟩ "1" "t2" = (none, []))
    ∧ (saveFilterPreset [] " a " ⟨[], [], [], ""⟩ "1" "t2" =
        (some ⟨"1", "a", ⟨[], [], [], ""⟩, "t2"⟩,
          [⟨"1", "a", ⟨[], [], [], ""⟩, "t2"⟩])) := by
  have h1 := saveFilterPreset_spec
    (List.replicate 10 ⟨"0", "n", ⟨[], [], [], ""⟩, "t"⟩)
    "new" ⟨[], [], [], ""⟩ "1" "t2"
  have h2 := saveFilterPreset_spec [] "  " ⟨[], [], [], ""⟩ "1" "t2"
  have h3 := saveFilterPreset_spec [] " a " ⟨[], [], [], ""⟩ "1" "t2"
  exact ⟨h1.2.1 (by simp), h2.1 (by decide), h3.2.2 (by decide) (by decide)⟩

/-! The program entity, from the type definitions module. The browse
screen sorting also reads a city property not declared on the interface;
it is modelled as optional, none standing for the undefined value. -/

/-- Program record, from the API type definitions. -/
structure Program where
  id : String
  name : String
  category : String
  description : String
  eligibility : List String
  areas : List String
  website : String
  cost : Option String
  phone : Option String
  email : Option String
  requirements : Option String
  howToApply : Option String
  city : Option String
  lastUpdated : String
deriving DecidableEq

/-! The derived list view model of the browse screen: filtering by saved
status, category and area, then sorting. -/

/-- Areas that apply to everyone, from the browse screen. -/
def BROAD_AREAS : List String :=
  ["Bay Area", "Bay Area-wide", "Statewide", "California", "Nationwide"]

/-- Category display names and icons, from the browse screen. -/
def CATEGORY_CONFIG : List (String × String × String) :=
  [("community", "Community", "🏘️"),
   ("education", "Education", "📚"),
   ("equipment", "Equipment", "🛠️"),
   ("finance", "Finance", "💰"),
   ("food", "Food", "🍎"),
   ("health", "Health", "💊"),
   ("legal", "Legal", "⚖️"),
   ("library_resources", "Library", "📖"),
   ("pet_resources", "Pets", "🐾"),
   ("recreation", "Recreation", "⚽"),
   ("technology", "Technology", "💻"),
   ("transportation", "Transportation", "🚌"),
   ("utilities", "Utilities", "🏠")]

/-- Sort options of the browse screen. -/
inductive SortOption where
  | nameAsc
  | nameDesc
  | areaAsc
  | areaDesc
  | categoryAsc
  | categoryDesc
  | recentlyVerified
deriving DecidableEq

/-- JavaScript string disjunction: the left operand unless it is absent
or empty (falsy), else the right operand. -/
def jsOrString (a : Option String) (b : String) : String :=
  match a with
  | none => b
  | some s => if s = "" then b else s

/-- Sort key of the area orderings: city, else first area, else empty. -/
def areaSortKey (p : Program) : String :=
  jsOrString p.city (jsOrString p.areas.head? "")

/-- Display name of a category: configured name, else the raw id. -/
def categoryDisplayName (c : String) : String :=
  jsOrString ((CATEGORY_CONFIG.lookup c).map Prod.fst) c

/-- Model of String.prototype.localeCompare: negative, zero or positive
according to lexicographic comparison. -/
def localeCompare (a b : String) : Int :=
  if a < b then -1 else if b < a then 1 else 0

/-- Comparator of the browse screen sort switch. The getTime parameter
models Date parsing of the lastUpdated field. -/
def programCmp (sortBy : SortOption) (getTime : String → Int)
    (a b : Program) : Int :=
  match sortBy with
  | .nameAsc => localeCompare a.name b.name
  | .nameDesc => localeCompare b.name a.name
  | .areaAsc => localeCompare (areaSortKey a) (areaSortKey b)
  | .areaDesc => localeCompare (areaSortKey b) (areaSortKey a)
  | .categoryAsc =>
      localeCompare (categoryDisplayName a.category) (categoryDisplayName b.category)
  | .categoryDesc =>
      localeCompare (categoryDisplayName b.category) (categoryDisplayName a.category)
  | .recentlyVerified => getTime b.lastUpdated - getTime a.lastUpdated

/-- Stable ascending sort by the comparator, modelling the sort call on
the copied array. -/
def sortPrograms (sortBy : SortOption) (getTime : String → Int)
    (l : List Program) : List Program :=
  l.insertionSort (fun a b => programCmp sortBy getTime a b ≤ 0)

/-- Saved-only stage of the browse screen filter. -/
def savedFilter (favorites : List String) (showSavedOnly : Bool)
    (l : List Program) : List Program :=
  if showSavedOnly then l.filter (fun p => favorites.contains p.id) else l

/-- Category stage of the browse screen filter; a null or empty selection
(falsy) leaves the list unchanged. -/
def categoryFilter (selectedCategory : Option String)
    (l : List Program) : List Program :=
  match selectedCategory with
  | none => l
  | some c => if c = "" then l else l.filter (fun p => p.category = c)

/-- Area stage of the browse screen filter: the sentinel string none keeps
only broad area programs; a specific county keeps programs of that county
plus broad area programs; a null or empty selection leaves the list
unchanged. -/
def areaFilter (selectedArea : Option String)
    (l : List Program) : List Program :=
  match selectedArea with
  | none => l
  | some area =>
    if area = "" then l
    else if area = "none" then
      l.filter (fun p => p.areas.any (fun a => BROAD_AREAS.contains a))
    else
      l.filter (fun p =>
        p.areas.contains area || p.areas.any (fun a => BROAD_AREAS.contains a))

/-- Filter portion of the browse screen filteredPrograms memo: the three
stages applied in source order. -/
def browseFilter (programs : List Program) (favorites : List String)
    (selectedCategory : Option String) (selectedArea : Option String)
    (showSavedOnly : Bool) : List Program :=
  areaFilter selectedArea
    (categoryFilter selectedCategory (savedFilter favorites showSavedOnly programs))

/-- Browse screen filteredPrograms: filter then sort. -/
def filteredPrograms (programs : List Program) (favorites : List String)
    (selectedCategory : Option String) (selectedArea : Option String)
    (showSavedOnly : Bool) (sortBy : SortOption) (getTime : String → Int) :
    List Program :=
  sortPrograms sortBy getTime
    (browseFilter programs favorites selectedCategory selectedArea showSavedOnly)

/-- APIService.filterPrograms: conjunctive filter over categories,
eligibility and areas, an empty criterion list matching everything. -/
def filterProgramsBy (programs : List Program)
    (categories eligibility areas : List String) : List Program :=
  programs.filter (fun program =>
    (categories.isEmpty || categories.contains program.category)
    && (eligibility.isEmpty
        || eligibility.any (fun e => program.eligibility.contains e))
    && (areas.isEmpty || areas.any (fun a => program.areas.contains a)))

/-- C4: with a specific county selected as the area filter and no other
filter active, the derived filtered list holds exactly the programs of
the input list whose areas include that county or include a broad scope
tag; in particular a program tagged only Statewide appears for every
specific county selection. -/
theorem filteredPrograms_area_inclusive (programs : List Program)
    (county : String) (sortBy : SortOption) (getTime : String → Int)
    (p : Program) (hc : county ≠ "none") (hne : county ≠ "") :
    (p ∈ filteredPrograms programs [] none (some county) false sortBy getTime ↔
      p ∈ programs ∧ (county ∈ p.areas ∨ ∃ a ∈ p.areas, a ∈ BROAD_AREAS))
    ∧ (p.areas = ["Statewide"] → p ∈ programs →
        p ∈ filteredPrograms programs [] none (some county) false sortBy getTime) := by
  have hmem : p ∈ filteredPrograms programs [] none (some county) false
      sortBy getTime ↔
      p ∈ programs ∧ (county ∈ p.areas ∨ ∃ a ∈ p.areas, a ∈ BROAD_AREAS) := by
    unfold filteredPrograms sortPrograms browseFilter areaFilter
      categoryFilter savedFilter
    rw [List.mem_insertionSort]
    simp [hne, hc, List.mem_filter, and_comm]
  refine ⟨hmem, fun hareas hp => ?_⟩
  refine hmem.mpr ⟨hp, Or.inr ⟨"Statewide", ?_, by decide⟩⟩
  rw [hareas]
  exact List.mem_singleton.mpr rfl

/-- Sample program used to instantiate the area filter theorem. -/
def stateParksProgram : Program :=
  ⟨"p1", "State Parks Pass", "recreation", "Free entry to state parks",
   ["low-income"], ["Statewide"], "https://example.org",
   none, none, none, none, none, none, "2024-01-01"⟩

/-- Concrete instantiation of the area filter theorem: the Statewide
program appears when Marin County is the selected area. -/
theorem filteredPrograms_area_inclusive_witness :
    stateParksProgram ∈ filteredPrograms [stateParksProgram] [] none
      (some "Marin County") false SortOption.nameAsc (fun _ => 0) :=
  (filteredPrograms_area_inclusive [stateParksProgram] "Marin County"
    SortOption.nameAsc (fun _ => 0) stateParksProgram
    (by decide) (by decide)).2 rfl (List.mem_singleton.mpr rfl)

/-- Filtering twice with one predicate equals filtering once. -/
theorem filter_idempotent {α : Type} (p : α → Bool) (l : List α) :
    (l.filter p).filter p = l.filter p :=
  List.filter_eq_self.mpr (fun _ ha => List.of_mem_filter ha)

/-- Total predicate of the saved-only stage. -/
def savedPred (favorites : List String) (showSavedOnly : Bool)
    (p : Program) : Bool :=
  !showSavedOnly || favorites.contains p.id

/-- Total predicate of the category stage. -/
def categoryPred (selectedCategory : Option String) (p : Program) : Bool :=
  match selectedCategory with
  | none => true
  | some c => if c = "" then true else p.category = c

/-- Total predicate of the area stage. -/
def areaPred (selectedArea : Option String) (p : Program) : Bool :=
  match selectedArea with
  | none => true
  | some area =>
    if area = "" then true
    else if area = "none" then p.areas.any (fun a => BROAD_AREAS.contains a)
    else p.areas.contains area || p.areas.any (fun a => BROAD_AREAS.contains a)

/-- Saved-only stage as a single filter. -/
theorem savedFilter_eq_filter (favorites : List String) (saved : Bool)
    (l : List Program) :
    savedFilter favorites saved l = l.filter (savedPred favorites saved) := by
  cases saved with
  | false =>
    have h : savedPred favorites false = fun _ => true := by
      funext p
      simp [savedPred]
    simp [savedFilter, h]
  | true =>
    have h : savedPred favorites true = fun p => favorites.contains p.id := by
      funext p
      simp [savedPred]
    simp [savedFilter, h]

/-- Category stage as a single filter. -/
theorem categoryFilter_eq_filter (selectedCategory : Option String)
    (l : List Program) :
    categoryFilter selectedCategory l = l.filter (categoryPred selectedCategory) := by
  cases selectedCategory with
  | none =>
    have h : categoryPred none = fun _ => true := by
      funext p
      simp [categoryPred]
    simp [categoryFilter, h]
  | some c =>
    by_cases hch : c = ""
    · subst hch
      have h : categoryPred (some "") = fun _ => true := by
        funext p
        simp [categoryPred]
      simp [categoryFilter, h]
    · have h : categoryPred (some c) = fun p => decide (p.category = c) := by
        funext p
        simp [categoryPred, hch]
      simp [categoryFilter, hch, h]

/-- Area stage as a single filter. -/
theorem areaFilter_eq_filter (selectedArea : Option String)
    (l : List Program) :
    areaFilter selectedArea l = l.filter (areaPred selectedArea) := by
  cases selectedArea with
  | none =>
    have h : areaPred none = fun _ => true := by
      funext p
      simp [areaPred]
    simp [areaFilter, h]
  | some area =>
    by_cases h1 : area = ""
    · subst h1
      have h : areaPred (some "") = fun _ => true := by
        funext p
        simp [areaPred]
      simp [areaFilter, h]
    · by_cases h2 : area = "none"
      · subst h2
        have h : areaPred (some "none") =
            fun p => p.areas.any (fun a => BROAD_AREAS.contains a) := by
          funext p
          simp [areaPred]
        simp [areaFilter, h]
      · have h : areaPred (some area) = fun p =>
            p.areas.contains area
            || p.areas.any (fun a => BROAD_AREAS.contains a) := by
          funext p
          simp [areaPred, h1, h2]
        simp [areaFilter, h1, h2, h]

/-- Browse filter as a single filter over the conjunction of the three
stage predicates. -/
theorem browseFilter_eq_filter (programs : List Program)
    (favorites : List String) (selectedCategory selectedArea : Option String)
    (saved : Bool) :
    browseFilter programs favorites selectedCategory selectedArea saved =
      programs.filter (fun p =>
        areaPred selectedArea p
        && categoryPred selectedCategory p && savedPred favorites saved p) := by
  unfold browseFilter
  rw [savedFilter_eq_filter, categoryFilter_eq_filter, areaFilter_eq_filter,
    List.filter_filter, List.filter_filter]

/-- C8: the view model filtering is idempotent, both for the browse screen
filter stages and for the service filter, and the full filter-plus-sort
pipeline is a pure function: identical inputs give the identical ordered
sequence. -/
theorem filtering_idempotent_deterministic (programs : List Program)
    (favorites : List String) (selectedCategory selectedArea : Option String)
    (saved : Bool) (cats elig areas : List String)
    (sortBy : SortOption) (getTime : String → Int) :
    browseFilter
        (browseFilter programs favorites selectedCategory selectedArea saved)
        favorites selectedCategory selectedArea saved =
      browseFilter programs favorites selectedCategory selectedArea saved
    ∧ filterProgramsBy (filterProgramsBy programs cats elig areas)
        cats elig areas =
      filterProgramsBy programs cats elig areas
    ∧ filteredPrograms programs favorites selectedCategory selectedArea
        saved sortBy getTime =
      filteredPrograms programs favorites selectedCategory selectedArea
        saved sortBy getTime := by
  refine ⟨?_, ?_, rfl⟩
  · rw [browseFilter_eq_filter, browseFilter_eq_filter]
    exact filter_idempotent _ programs
  · unfold filterProgramsBy
    exact filter_idempotent _ programs

/-! The search request sequencer of the search screen: performSearch with
the requestIdRef counter. -/

/-- Search screen state relevant to result application: the request
counter ref and the visible results. -/
structure SearchState where
  counter : Nat
  visible : List Program
  searched : Bool
deriving DecidableEq

/-- Event of a search screen execution: performSearch issuing a query, or
the completion of the request carrying a given stamp with its results. -/
inductive SearchEvent where
  | issue : String → SearchEvent
  | complete : Nat → List Program → SearchEvent

/-- Step of the sequencer: performSearch returns early on queries shorter
than two characters and otherwise stamps the request with the incremented
counter; a completion applies its results to the visible state only when
its stamp still equals the latest counter value. -/
def searchStep (s : SearchState) : SearchEvent → SearchState
  | .issue q => if q.length < 2 then s else { s with counter := s.counter + 1 }
  | .complete stamp results =>
      if stamp = s.counter then { s with visible := results, searched := true }
      else s

/-- Run of a list of events from a state. -/
def searchRun (s : SearchState) (evs : List SearchEvent) : SearchState :=
  evs.foldl searchStep s

/-- Counter never decreases across one step. -/
theorem searchStep_counter_le (s : SearchState) (e : SearchEvent) :
    s.counter ≤ (searchStep s e).counter := by
  cases e with
  | issue q =>
    by_cases h : q.length < 2
    · simp [searchStep, h]
    · simp only [searchStep, if_neg h]
      exact Nat.le_succ _
  | complete stamp res =>
    by_cases h : stamp = s.counter
    · simp [searchStep, h]
    · simp [searchStep, h]

/-- Counter never decreases across a run. -/
theorem searchRun_counter_le (evs : List SearchEvent) (s : SearchState) :
    s.counter ≤ (searchRun s evs).counter := by
  induction evs generalizing s with
  | nil => exact le_refl _
  | cons e evs ih =>
    have h1 := searchStep_counter_le s e
    have h2 := ih (searchStep s e)
    exact le_trans h1 h2

/-- C3: an accepted search request is stamped with the strictly increased
counter; a completion whose stamp differs from the counter leaves the
state unchanged; a completion whose stamp was superseded (below the
counter) stays discarded after any further events; and in the two-request
scenario where the later request completes first, the final visible result
set is that of the later request even after the earlier request completes
last. -/
theorem search_last_request_wins (s : SearchState) (q1 q2 : String)
    (res1 res2 : List Program) (h1 : 2 ≤ q1.length) (h2 : 2 ≤ q2.length) :
    (∀ t : SearchState, ∀ q : String, 2 ≤ q.length →
      (searchStep t (.issue q)).counter = t.counter + 1)
    ∧ (∀ t : SearchState, ∀ stamp res, stamp ≠ t.counter →
        searchStep t (.complete stamp res) = t)
    ∧ (∀ t : SearchState, ∀ evs stamp res, stamp < t.counter →
        searchStep (searchRun t evs) (.complete stamp res) = searchRun t evs)
    ∧ (searchRun s [.issue q1, .issue q2, .complete (s.counter + 2) res2,
        .complete (s.counter + 1) res1]).visible = res2 := by
  have hg1 : ¬ q1.length < 2 := by omega
  have hg2 : ¬ q2.length < 2 := by omega
  refine ⟨?_, ?_, ?_, ?_⟩
  · intro t q hq
    have hg : ¬ q.length < 2 := by omega
    simp [searchStep, hg]
  · intro t stamp res hne
    simp [searchStep, hne]
  · intro t evs stamp res hlt
    have hmono := searchRun_counter_le evs t
    have hne : stamp ≠ (searchRun t evs).counter := by omega
    simp [searchStep, hne]
  · have st1 : searchStep s (.issue q1) = { s with counter := s.counter + 1 } := by
      simp [searchStep, hg1]
    have st2 : searchStep { s with counter := s.counter + 1 } (.issue q2) =
        { s with counter := s.counter + 2 } := by
      simp [searchStep, hg2]
    have st3 : searchStep { s with counter := s.counter + 2 }
        (.complete (s.counter + 2) res2) =
        { s with counter := s.counter + 2, visible := res2, searched := true } := by
      simp [searchStep]
    have st4 : searchStep
        { s with counter := s.counter + 2, visible := res2, searched := true }
        (.complete (s.counter + 1) res1) =
        { s with counter := s.counter + 2, visible := res2, searched := true } := by
      have hne : s.counter + 1 ≠ s.counter + 2 := by omega
      simp [searchStep, hne]
    simp only [searchRun, List.foldl]
    rw [st1, st2, st3, st4]

/-- Concrete instantiation of the sequencer theorem: two requests, the
later completing first, the earlier completing last; the visible results
are those of the later request. -/
theorem search_last_request_wins_witness :
    (searchRun ⟨0, [], false⟩
      [.issue "ab", .issue "cd", .complete 2 [stateParksProgram],
       .complete 1 []]).visible = [stateParksProgram] := by
  have h := search_last_request_wins ⟨0, [], false⟩ "ab" "cd" []
    [stateParksProgram] (by decide) (by decide)
  simpa using h.2.2.2

/-! Cache clearing, from APIService.clearCache, over the raw string
key-value store. -/

/-- Raw persisted key-value store. -/
def Storage : Type := String → Option String

/-- Theme preference key persisted by the theme context, inside the same
app namespace as the CACHE_KEYS values. -/
def THEME_STORAGE_KEY : String := "@bay_area_discounts:theme_mode"

/-- AsyncStorage.multiRemove: delete every listed key. -/
def multiRemove (storage : Storage) (keys : List String) : Storage :=
  fun k => if keys.contains k then none else storage k

/-- APIService.clearCache: remove every CACHE_KEYS value except the
favorites key. -/
def clearCache (storage : Storage) : Storage :=
  multiRemove storage
    (CACHE_KEYS_values.filter (fun key => key ≠ KEY_FAVORITES))

/-- Namespace predicate of the app keys, modelling the startsWith check
used by getCacheSize over the app prefix. -/
def inAppNamespace (k : String) : Bool :=
  List.isPrefixOf "@bay_area_discounts:".data k.data

/-- Storage holding only the persisted theme preference. -/
def themeOnlyStorage : Storage :=
  fun k => if k = THEME_STORAGE_KEY then some "dark" else none

/-- C10 counterexample: the theme preference key lies in the app
namespace, differs from the favorites key, is persisted, and survives
clearCache unchanged, refuting the claim that clearCache removes every
persisted key of the app namespace except the favorites key. -/
theorem clearCache_keeps_theme_key :
    inAppNamespace THEME_STORAGE_KEY = true
    ∧ THEME_STORAGE_KEY ≠ KEY_FAVORITES
    ∧ themeOnlyStorage THEME_STORAGE_KEY = some "dark"
    ∧ clearCache themeOnlyStorage THEME_STORAGE_KEY = some "dark" := by
  refine ⟨by decide, by decide, by decide, by decide⟩

/-- C10 amended: clearCache deletes exactly the CACHE_KEYS entries other
than the favorites key (the five cached payloads, the recent searches and
the filter presets), leaves the favorites value identical, and leaves
every key outside CACHE_KEYS, in particular the theme preference key,
untouched. -/
theorem clearCache_spec (storage : Storage) (k : String) :
    (k ∈ CACHE_KEYS_values → k ≠ KEY_FAVORITES → clearCache storage k = none)
    ∧ clearCache storage KEY_FAVORITES = storage KEY_FAVORITES
    ∧ (k ∉ CACHE_KEYS_values → clearCache storage k = storage k)
    ∧ clearCache storage THEME_STORAGE_KEY = storage THEME_STORAGE_KEY := by
  refine ⟨?_, ?_, ?_, ?_⟩
  · intro hmem hne
    have hin : k ∈ CACHE_KEYS_values.filter (fun key => key ≠ KEY_FAVORITES) :=
      List.mem_filter.mpr ⟨hmem, by simp [hne]⟩
    have hc : (CACHE_KEYS_values.filter
        (fun key => key ≠ KEY_FAVORITES)).contains k = true := by
      simpa using hin
    unfold clearCache multiRemove
    rw [hc]
    simp
  · have hc : (CACHE_KEYS_values.filter
        (fun key => key ≠ KEY_FAVORITES)).contains KEY_FAVORITES = false := by
      decide
    unfold clearCache multiRemove
    rw [hc]
    simp
  · intro hmem
    have hin : k ∉ CACHE_KEYS_values.filter (fun key => key ≠ KEY_FAVORITES) :=
      fun hk => hmem (List.mem_filter.mp hk).1
    have hc : (CACHE_KEYS_values.filter
        (fun key => key ≠ KEY_FAVORITES)).contains k = false := by
      simpa using hin
    unfold clearCache multiRemove
    rw [hc]
    simp
  · have hc : (CACHE_KEYS_values.filter
        (fun key => key ≠ KEY_FAVORITES)).contains THEME_STORAGE_KEY = false := by
      decide
    unfold clearCache multiRemove
    rw [hc]
    simp

/-- Concrete instantiation of the clearCache theorem on a storage holding
every key: the programs payload is removed, the favorites and theme keys
are preserved. -/
theorem clearCache_spec_witness :
    clearCache (fun k => some k) KEY_PROGRAMS = none
    ∧ clearCache (fun k => some k) KEY_FAVORITES = some KEY_FAVORITES
    ∧ clearCache (fun k => some k) THEME_STORAGE_KEY = some THEME_STORAGE_KEY := by
  have h1 := clearCache_spec (fun k => some k) KEY_PROGRAMS
  have h2 := clearCache_spec (fun k => some k) THEME_STORAGE_KEY
  exact ⟨h1.1 (by decide) (by decide), h1.2.1, h2.2.2.1 (by decide)⟩

end BayArea
